import Mathlib

/-!
# Covox music player: playback scheduler

A shallow embedding of `covox-music-player-linux.c`: the level mapper
`mapShortTo8bit`, the computation of `nanosecondsPerFrame` in `main`, the
loop of `playbackFunction`, and the drift poll of the UI loop in `main`.

Conventions of the embedding.

* C `int` is 32 bits, `short` 16 bits, `long` and `long long` 64 bits
  (x86-64 Linux, the platform of `sys/io.h`).  A narrowing conversion to a
  signed type reduces modulo `2 ^ w` (the behaviour gcc defines), and so does
  every `int` operation of the loop: the difference
  `frameNumber - previousFrameNumber` and the index
  `frameNumber * channels + m` wrap around.  Values of type `long` and
  `long long` are kept as unbounded integers: clock values and drift totals
  stay far below `2 ^ 63`.
* `double` arithmetic is IEEE-754 binary64 with round-to-nearest-even.  Only
  finite non-negative values in the normal range occur; they are carried as
  `mant * 2 ^ exp` and each operation rounds its exact result to 53 bits.
* One pass of the playback loop reads the flags `endPlayback`,
  `pausePlayback` and the clock once (a `Tick`).  One drift poll of the UI
  loop loads the playback counter three times (lines 309, 311, 313); the
  playback thread may add to it in between, so the three loaded values are
  separate inputs of the poll.
* Division by zero and a read outside `dataBuffer` are faults.
-/

namespace Covox

/-! ## Machine integers -/

/-- Conversion of an integer to a signed type of `w` bits: reduction modulo `2 ^ w`. -/
def wrapSigned (w : Nat) (x : Int) : Int :=
  (x + 2 ^ (w - 1)) % 2 ^ w - 2 ^ (w - 1)

/-- Conversion to C `int`. -/
def toInt (x : Int) : Int := wrapSigned 32 x

/-- Conversion to C `short`. -/
def toShort (x : Int) : Int := wrapSigned 16 x

/-! ## Binary64 arithmetic -/

/-- Finite non-negative binary64 value `mant * 2 ^ exp`. -/
structure Double where
  mant : Nat
  exp : Int
deriving DecidableEq, Repr

/-- Position of the leading one bit of `n`, by halving with fuel `fuel`. -/
def log2Fuel : Nat → Nat → Nat
  | 0, _ => 0
  | fuel + 1, n => if 2 ≤ n then log2Fuel fuel (n / 2) + 1 else 0

/-- Floor of the binary logarithm (0 at 0). -/
def ilog2 (n : Nat) : Nat := log2Fuel n n

/-- Quotient `num / den` rounded to the nearest integer, ties to even. -/
def roundHalfEven (num den : Nat) : Nat :=
  let q := num / den
  let r := num % den
  if 2 * r < den then q
  else if den < 2 * r then q + 1
  else if q % 2 = 0 then q else q + 1

/-- Rounding of the exact value `m * 2 ^ e` to a 53-bit significand. -/
def Double.round (m : Nat) (e : Int) : Double :=
  let k := ilog2 m - 52
  ⟨roundHalfEven m (2 ^ k), e + k⟩

/-- Binary64 quotient of two positive integers that are themselves exact doubles:
the scale `s` is chosen so that `a * 2 ^ s / b` lies in `[2 ^ 52, 2 ^ 53)`. -/
def Double.div (a b : Nat) : Double :=
  let s0 : Int := 52 + (ilog2 b : Int) - (ilog2 a : Int)
  let s : Int := if 2 ^ 52 * (b * 2 ^ (-s0).toNat) ≤ a * 2 ^ s0.toNat then s0 else s0 + 1
  ⟨roundHalfEven (a * 2 ^ s.toNat) (b * 2 ^ (-s).toNat), -s⟩

/-- Binary64 product. -/
def Double.mul (x y : Double) : Double :=
  Double.round (x.mant * y.mant) (x.exp + y.exp)

/-- Conversion of a double to an integer type: the fraction is discarded. -/
def Double.toNat (d : Double) : Nat :=
  if 0 ≤ d.exp then d.mant * 2 ^ d.exp.toNat else d.mant / 2 ^ (-d.exp).toNat

/-! ## The level mapper -/

/-- Significand of the double nearest to 255 / 65535, whose exponent is -61. -/
def slopeMant : Nat := 8972151786823712

/-- Source function `mapShortTo8bit` (lines 73-81):
`slope = 1.0 * (UINT8_MAX - 0) / (SHRT_MAX - SHRT_MIN)` and
`output = 0 + slope * (input - SHRT_MIN)` converted to `uint8_t`.
The product `1.0 * 255` and the sum with `0` are exact; for an input in the range of
`short` the product is below 256, so the conversion to `uint8_t` only drops the fraction. -/
def mapShortTo8bit (input : Int) : Nat :=
  let slope := Double.div (1 * (255 - 0)) (32767 - (-32768 : Int)).toNat
  Double.toNat (Double.mul slope ⟨(input - (-32768)).toNat, 0⟩)

/-- The level mapper as the specification words it:
`round((input - INT16_MIN) * 255 / 65535)`, clamped to `[0, 255]`. -/
def levelMapperSpec (input : Int) : Int :=
  max 0 (min 255 (round ((((input - (-32768)) * 255 : Int) : ℚ) / 65535)))

/-! ## The playback clock -/

/-- Line 286 of `main`: `nanosecondsPerFrame = 1E9 / sampleRate`, a double quotient
stored in a `long long`.  A rate below 1 is outside the model. -/
def nanosecondsPerFrameOf (sampleRate : Int) : Option Int :=
  if 0 < sampleRate then some (Double.toNat (Double.div 1000000000 sampleRate.toNat)) else none

/-- Line 127: `frameNumber = timeSinceStart / nanosecondsPerFrame`, a `long long`
quotient stored in an `int`; division by zero is a fault. -/
def frameNumberAt (nanosecondsPerFrame timeSinceStart : Int) : Option Int :=
  if nanosecondsPerFrame = 0 then none
  else some (toInt (Int.tdiv timeSinceStart nanosecondsPerFrame))

/-- The target frame as the specification words it:
`floor((now - startTime) * sampleRate / 1e9)`. -/
def targetFrameSpec (sampleRate t : Int) : Int :=
  ⌊((t * sampleRate : Int) : ℚ) / 1000000000⌋

/-! ## The playback loop -/

/-- Globals that `main` sets before the playback thread starts and that stay fixed. -/
structure Config where
  dataBuffer : List Int
  totalCount : Int
  nanosecondsPerFrame : Int
  startSpecTime : Int
  channels : Int
deriving DecidableEq, Repr

/-- Globals the playback thread changes, with the bytes sent to the port (oldest first). -/
structure PlayerState where
  frameNumber : Int
  previousFrameNumber : Int
  framesSkippedCumulativePlaybackThread : Int
  port : List Nat
deriving DecidableEq, Repr

/-- What one pass of the loop observes: both flags and the monotonic clock. -/
structure Tick where
  endPlayback : Bool
  pausePlayback : Bool
  now : Int
deriving DecidableEq, Repr

/-- Result of running the loop. -/
inductive Outcome where
  | running (s : PlayerState)
  | finished (s : PlayerState)
  | fault
deriving DecidableEq, Repr

/-- State at thread start: lines 107 and 289-290. -/
def initialState : PlayerState :=
  { frameNumber := 0, previousFrameNumber := 0,
    framesSkippedCumulativePlaybackThread := 0, port := [] }

/-- One pass of the `while(1)` body of `playbackFunction` (lines 110-152).  The
difference at lines 134-135 and the index at line 144 are `int` expressions and wrap. -/
def playbackIteration (c : Config) (s : PlayerState) (t : Tick) : Outcome :=
  if t.endPlayback then Outcome.finished s
  else if t.pausePlayback then Outcome.running s
  else
    let timeSinceStart := t.now - c.startSpecTime
    match frameNumberAt c.nanosecondsPerFrame timeSinceStart with
    | none => Outcome.fault
    | some frameNumber =>
      if frameNumber ≥ c.totalCount then
        Outcome.finished { s with frameNumber := frameNumber }
      else
        let skipped :=
          if toInt (frameNumber - s.previousFrameNumber) > 1 then
            s.framesSkippedCumulativePlaybackThread
              + toInt (toInt (frameNumber - s.previousFrameNumber) - 1)
          else s.framesSkippedCumulativePlaybackThread
        let index := toInt (toInt (frameNumber * c.channels) + 0)
        if index < 0 then Outcome.fault
        else
          match c.dataBuffer[index.toNat]? with
          | none => Outcome.fault
          | some sample =>
            let sum := 0 + sample
            if c.channels = 0 then Outcome.fault
            else
              let value := toShort (Int.tdiv sum c.channels)
              let smallValue := mapShortTo8bit value
              Outcome.running
                { frameNumber := frameNumber, previousFrameNumber := frameNumber,
                  framesSkippedCumulativePlaybackThread := skipped,
                  port := s.port ++ [smallValue] }

/-- The loop of `playbackFunction` over the ticks it observes. -/
def playbackFunction (c : Config) : PlayerState → List Tick → Outcome
  | s, [] => Outcome.running s
  | s, t :: ts =>
    match playbackIteration c s t with
    | Outcome.running s1 => playbackFunction c s1 ts
    | r => r

/-! ## The drift poll of the UI loop -/

/-- The two drift counters (lines 106-107). -/
structure DriftCounters where
  framesSkippedCumulativePlaybackThread : Int
  framesSkippedCumulativeUIThread : Int
deriving DecidableEq, Repr

/-- Values of `framesSkippedCumulativePlaybackThread` loaded by one poll: by the test at
line 309, by the subtraction at line 311 and by the assignment at line 313. -/
structure PollLoads where
  load309 : Int
  load311 : Int
  load313 : Int
deriving DecidableEq, Repr

/-- Lines 307-317 of `main`: the value `framesSkipped` that is printed, and the counters as
the poll leaves them.  `g` holds the counters when the poll starts and `l` what the three
loads of the playback counter see (the playback thread may have added to it before each of
them); the record returned carries the stores of the poll itself, of which there is one,
to `framesSkippedCumulativeUIThread`. -/
def pollFramesSkipped (g : DriftCounters) (l : PollLoads) : Int × DriftCounters :=
  if l.load309 ≠ g.framesSkippedCumulativeUIThread then
    let diff := toInt (l.load311 - g.framesSkippedCumulativeUIThread)
    (diff, { g with framesSkippedCumulativeUIThread := l.load313 })
  else (0, g)

/-- A poll during which the playback counter keeps the value `p`. -/
def stableLoads (p : Int) : PollLoads := ⟨p, p, p⟩

/-- Successive polls: `loads` lists what each poll loads; the result is the list of
printed values and the final UI counter. -/
def uiPolls (ui : Int) : List PollLoads → List Int × Int
  | [] => ([], ui)
  | l :: ls =>
    let r := pollFramesSkipped ⟨l.load309, ui⟩ l
    let rest := uiPolls r.2.framesSkippedCumulativeUIThread ls
    (r.1 :: rest.1, rest.2)

/-! ## Vocabulary of the claims -/

/-- Clock values the loop really reads: those of the passes that are neither ended nor paused. -/
def clockReads (ticks : List Tick) : List Int :=
  (ticks.filter (fun t => !t.endPlayback && !t.pausePlayback)).map (fun t => t.now)

/-- Frame indices computed from the clock values the ticks offer to the loop. -/
def targetFrames (c : Config) (ticks : List Tick) : List Int :=
  (clockReads ticks).filterMap
    (fun now => frameNumberAt c.nanosecondsPerFrame (now - c.startSpecTime))

/-- Number of frame indices `k` with `0 < k < p` that are not among `targets`. -/
def unvisitedBelow (p : Int) (targets : List Int) : Nat :=
  (List.range p.toNat).countP (fun k : Nat => decide (0 < k) && !decide ((k : Int) ∈ targets))

/-- Value of the drift counter after a pass that emits frame `f` (lines 134-136), the
difference `f - previousFrameNumber` and the amount added being `int` values. -/
def skippedAfter (s : PlayerState) (f : Int) : Int :=
  if toInt (f - s.previousFrameNumber) > 1 then
    s.framesSkippedCumulativePlaybackThread + toInt (toInt (f - s.previousFrameNumber) - 1)
  else s.framesSkippedCumulativePlaybackThread

/-- The `int` index `frameNumber * channels + m` of line 144. -/
def bufferIndex (frameNumber channels m : Int) : Int :=
  toInt (toInt (frameNumber * channels) + m)

/-- A tick with both flags clear and the given clock value. -/
def tickAt (now : Int) : Tick := ⟨false, false, now⟩

/-- A tick observed while `pausePlayback` is set. -/
def pausedTick (now : Int) : Tick := ⟨false, true, now⟩

/-- Ticks of a perfect clock: `n` reads, read number `k + i` being exactly `k + i` periods
after `startSpecTime`. -/
def perfectClock (c : Config) (k : Nat) : Nat → List Tick
  | 0 => []
  | n + 1 =>
    tickAt (c.startSpecTime + (k : Int) * c.nanosecondsPerFrame) :: perfectClock c (k + 1) n

/-- Two stereo frames, period 1000 ns, start at 0. -/
def stereoConfig : Config :=
  { dataBuffer := [32767, 32767, -32768, 100], totalCount := 2, nanosecondsPerFrame := 1000,
    startSpecTime := 0, channels := 2 }

/-- Stereo buffer of 2^30 + 1 zero frames (2^31 + 2 samples), period 1 ns, start at 0. -/
def longStereoConfig : Config :=
  { dataBuffer := List.replicate 2147483650 0, totalCount := 1073741825,
    nanosecondsPerFrame := 1, startSpecTime := 0, channels := 2 }

/-- Mono buffer of `n` zero samples played at `sampleRate` Hz from time `start`;
the period is the one `main` computes, 0 standing for a rate outside the model. -/
def silentConfig (n : Nat) (sampleRate start : Int) : Config :=
  { dataBuffer := List.replicate n 0, totalCount := n,
    nanosecondsPerFrame := (nanosecondsPerFrameOf sampleRate).getD 0,
    startSpecTime := start, channels := 1 }

/-! ## Binary64 lemmas -/

theorem log2Fuel_spec (fuel : Nat) : ∀ n : Nat, n ≤ fuel → 0 < n →
    2 ^ log2Fuel fuel n ≤ n ∧ n < 2 ^ (log2Fuel fuel n + 1) := by
  induction fuel with
  | zero => intro n h1 h2; omega
  | succ f ih =>
    intro n h1 h2
    unfold log2Fuel
    by_cases h : 2 ≤ n
    · rw [if_pos h]
      have h3 := ih (n / 2) (by omega) (by omega)
      constructor
      · rw [pow_succ]; omega
      · rw [pow_succ]; omega
    · rw [if_neg h]
      have : n = 1 := by omega
      subst this
      simp

theorem ilog2_le (n : Nat) (h : 0 < n) : 2 ^ ilog2 n ≤ n :=
  (log2Fuel_spec n n (le_refl n) h).1

theorem lt_ilog2 (n : Nat) : n < 2 ^ (ilog2 n + 1) := by
  rcases Nat.eq_zero_or_pos n with h | h
  · subst h; exact Nat.pow_pos (by decide)
  · exact (log2Fuel_spec n n (le_refl n) h).2

theorem ilog2_lt_of_lt (n b : Nat) (h : n < 2 ^ b) (hb : 0 < b) : ilog2 n < b := by
  rcases Nat.eq_zero_or_pos n with h0 | h0
  · subst h0; simpa [ilog2, log2Fuel] using hb
  · have h1 := ilog2_le n h0
    exact (Nat.pow_lt_pow_iff_right (by decide : 1 < 2)).1 (lt_of_le_of_lt h1 h)

theorem roundHalfEven_ge (num den : Nat) : num / den ≤ roundHalfEven num den := by
  unfold roundHalfEven
  simp only
  split_ifs <;> omega

theorem roundHalfEven_le (num den : Nat) : roundHalfEven num den ≤ num / den + 1 := by
  unfold roundHalfEven
  simp only
  split_ifs <;> omega

/-- Truncating a correctly rounded quotient gives the integer quotient when the scale exceeds the divisor. -/
theorem trunc_roundHalfEven_div (a s P : Nat) (hs : 0 < s) (hP : s < P) :
    roundHalfEven (a * P) s / P = a / s := by
  have hPpos : 0 < P := by omega
  have hq : a / s * s ≤ a := Nat.div_mul_le_self a s
  have hq2 : a < (a / s + 1) * s := by have := Nat.lt_mul_div_succ a hs; rwa [Nat.mul_comm] at this
  apply Nat.div_eq_of_lt_le
  · calc a / s * P ≤ a * P / s := by
          rw [Nat.le_div_iff_mul_le hs]
          calc a / s * P * s = a / s * s * P := by ring
            _ ≤ a * P := Nat.mul_le_mul_right P hq
      _ ≤ roundHalfEven (a * P) s := roundHalfEven_ge _ _
  · have h1 : a * P / s < (a / s + 1) * P - 1 := by
      rw [Nat.div_lt_iff_lt_mul hs, Nat.sub_mul, one_mul]
      have h3 : (a + 1) * P ≤ (a / s + 1) * s * P := Nat.mul_le_mul_right P hq2
      have h4 : (a / s + 1) * P * s = (a / s + 1) * s * P := by ring
      rw [h4]
      have h5 : (a + 1) * P = a * P + P := by ring
      rw [h5] at h3
      generalize (a / s + 1) * s * P = Y at h3 ⊢
      generalize a * P = Z at h3 ⊢
      omega
    have h2 := roundHalfEven_le (a * P) s
    generalize (a / s + 1) * P = X at h1 ⊢
    generalize a * P / s = G at h1 h2
    omega

/-- The model agrees with binary64 on familiar values: 1/3 is 0x3FD5555555555555, 1/10 is
0x3FB999999999999A, and 0.1 * 3 is 0x3FD3333333333334 (a tie, rounded to even). -/
theorem Double.known_values :
    Double.div 1 3 = ⟨0x15555555555555, -54⟩ ∧ Double.div 1 10 = ⟨0x1999999999999A, -56⟩ ∧
      Double.mul (Double.div 1 10) ⟨3, 0⟩ = ⟨0x13333333333334, -54⟩ := by
  decide

theorem Double.toNat_neg (m N : Nat) (hN : 0 < N) :
    Double.toNat ⟨m, -(N : Int)⟩ = m / 2 ^ N := by
  unfold Double.toNat
  have h : ¬ (0 : Int) ≤ -(N : Int) := by omega
  simp only [h, if_false, neg_neg, Int.toNat_ofNat]

theorem Double.div_billion (s : Nat) :
    ∃ N : Nat, 23 + ilog2 s ≤ N ∧
      Double.div 1000000000 s = ⟨roundHalfEven (1000000000 * 2 ^ N) s, -(N : Int)⟩ := by
  have h29 : ilog2 1000000000 = 29 := by decide
  have hs0 : (52 + (ilog2 s : Int) - (ilog2 1000000000 : Int)) = ((23 + ilog2 s : Nat) : Int) := by
    rw [h29]; push_cast; ring
  unfold Double.div
  simp only [hs0]
  split_ifs with h
  · refine ⟨23 + ilog2 s, le_refl _, ?_⟩
    simp only [Int.toNat_ofNat, Int.toNat_neg_nat, pow_zero, mul_one]
  · refine ⟨23 + ilog2 s + 1, by omega, ?_⟩
    have e1 : (((23 + ilog2 s : Nat) : Int) + 1) = ((23 + ilog2 s + 1 : Nat) : Int) := by
      push_cast; ring
    rw [e1]
    simp only [Int.toNat_ofNat, Int.toNat_neg_nat, pow_zero, mul_one]

/-- The double quotient 1E9 / sampleRate, truncated, is the integer quotient. -/
theorem Double.toNat_div_billion (s : Nat) (h1 : 0 < s) :
    Double.toNat (Double.div 1000000000 s) = 1000000000 / s := by
  obtain ⟨N, hN, hdiv⟩ := Double.div_billion s
  rw [hdiv, Double.toNat_neg _ _ (by omega)]
  apply trunc_roundHalfEven_div _ _ _ h1
  have h3 := lt_ilog2 s
  have h4 : 2 ^ (ilog2 s + 1) ≤ 2 ^ N := Nat.pow_le_pow_right (by decide) (by omega)
  omega

theorem slope_eq :
    Double.div (1 * (255 - 0)) (32767 - (-32768 : Int)).toNat = ⟨slopeMant, -61⟩ := by
  decide

theorem trunc_slope_mul (n k : Nat) (hn : n ≤ 65535) (hk : k ≤ 16) :
    roundHalfEven (slopeMant * n) (2 ^ k) / 2 ^ (61 - k) = n / 257 := by
  have hD : 0 < 2 ^ k := Nat.pow_pos (by decide)
  have hD2 : 2 ^ k ≤ 2 ^ 16 := Nat.pow_le_pow_right (by decide) hk
  have hED : 2 ^ (61 - k) * 2 ^ k = 2 ^ 61 := by
    rw [← pow_add]; congr 1; omega
  generalize 2 ^ k = D at hD hD2 hED ⊢
  generalize 2 ^ (61 - k) = E at hED ⊢
  have hn1 : n / 257 * 257 ≤ n := Nat.div_mul_le_self n 257
  have hn2 : n < (n / 257 + 1) * 257 := by
    have := Nat.lt_mul_div_succ n (by decide : 0 < 257); omega
  have hq : n / 257 ≤ 255 := by omega
  generalize n / 257 = q at hn1 hn2 hq ⊢
  have h1 := roundHalfEven_ge (slopeMant * n) D
  have h2 := roundHalfEven_le (slopeMant * n) D
  apply Nat.div_eq_of_lt_le
  · refine le_trans ?_ h1
    rw [Nat.le_div_iff_mul_le hD, Nat.mul_assoc, hED]
    unfold slopeMant
    omega
  · have h3 : slopeMant * n / D < (q + 1) * E - 1 := by
      rw [Nat.div_lt_iff_lt_mul hD, Nat.sub_mul, one_mul, Nat.mul_assoc, hED]
      unfold slopeMant
      omega
    generalize (q + 1) * E = X at h3 ⊢
    generalize slopeMant * n / D = G at h2 h3
    omega

/-- The level mapper computes the integer quotient by 257 of the offset sample. -/
theorem mapShortTo8bit_eq (input : Int) (h1 : -32768 ≤ input) (h2 : input ≤ 32767) :
    mapShortTo8bit input = (input + 32768).toNat / 257 := by
  unfold mapShortTo8bit
  simp only [slope_eq]
  have e : (input - (-32768)).toNat = (input + 32768).toNat := by rw [sub_neg_eq_add]
  rw [e]
  generalize hn : (input + 32768).toNat = n
  have hn' : n ≤ 65535 := by omega
  unfold Double.mul Double.round
  simp only
  have hk : ilog2 (slopeMant * n) - 52 ≤ 16 := by
    have : slopeMant * n < 2 ^ 69 := by unfold slopeMant; omega
    have := ilog2_lt_of_lt _ 69 this (by decide)
    omega
  generalize ilog2 (slopeMant * n) - 52 = k at hk
  have e2 : (-61 + 0 + (k : Int)) = -((61 - k : Nat) : Int) := by omega
  rw [e2, Double.toNat_neg _ _ (by omega)]
  exact trunc_slope_mul n k hn' hk


/-! ## Machine integer lemmas -/

theorem toInt_of_range (x : Int) (h1 : -2147483648 ≤ x) (h2 : x < 2147483648) : toInt x = x := by
  unfold toInt wrapSigned
  norm_num
  omega

theorem toShort_of_range (x : Int) (h1 : -32768 ≤ x) (h2 : x ≤ 32767) : toShort x = x := by
  unfold toShort wrapSigned
  norm_num
  omega

theorem toShort_range (x : Int) : -32768 ≤ toShort x ∧ toShort x ≤ 32767 := by
  unfold toShort wrapSigned
  norm_num
  omega

theorem toInt_range (x : Int) : -2147483648 ≤ toInt x ∧ toInt x < 2147483648 := by
  unfold toInt wrapSigned
  norm_num
  omega

/-! ## The clock: period and frame index -/

theorem nanosecondsPerFrameOf_eq (sampleRate : Int) (h : 0 < sampleRate) :
    nanosecondsPerFrameOf sampleRate = some (1000000000 / sampleRate) := by
  unfold nanosecondsPerFrameOf
  rw [if_pos h, Double.toNat_div_billion _ (by omega)]
  congr 1
  have e : sampleRate = ((sampleRate.toNat : Nat) : Int) := (Int.toNat_of_nonneg (le_of_lt h)).symm
  rw [e, Int.toNat_ofNat]
  norm_cast

theorem frameNumberAt_eq (npf t : Int) (hp : 0 < npf) (ht : 0 ≤ t) (hfit : t / npf < 2147483648) :
    frameNumberAt npf t = some (t / npf) := by
  unfold frameNumberAt
  rw [if_neg (by omega), Int.tdiv_eq_ediv ht (le_of_lt hp)]
  have h0 : 0 ≤ t / npf := Int.ediv_nonneg ht (le_of_lt hp)
  rw [toInt_of_range _ (by omega) hfit]

theorem targetFrameSpec_eq (sampleRate t : Int) :
    targetFrameSpec sampleRate t = t * sampleRate / 1000000000 := by
  unfold targetFrameSpec
  have e : (1000000000 : ℚ) = ((1000000000 : ℕ) : ℚ) := by norm_num
  rw [e, Rat.floor_intCast_div_natCast]
  norm_num

theorem period_pos (sampleRate : Int) (h1 : 0 < sampleRate) (h2 : sampleRate ≤ 1000000000) :
    0 < 1000000000 / sampleRate := by
  have : (1 : Int) ≤ 1000000000 / sampleRate := by
    rw [Int.le_ediv_iff_mul_le h1]; omega
  omega

theorem period_mul_le (sampleRate : Int) (h : 0 < sampleRate) :
    1000000000 / sampleRate * sampleRate ≤ 1000000000 :=
  Int.ediv_mul_le _ (by omega)

theorem spec_le_quotient (sampleRate t : Int) (h1 : 0 < sampleRate) (h2 : sampleRate ≤ 1000000000)
    (ht : 0 ≤ t) : t * sampleRate / 1000000000 ≤ t / (1000000000 / sampleRate) := by
  have hp : 0 < 1000000000 / sampleRate := period_pos sampleRate h1 h2
  have hps := period_mul_le sampleRate h1
  rw [Int.le_ediv_iff_mul_le hp]
  have hq : t * sampleRate / 1000000000 * 1000000000 ≤ t * sampleRate :=
    Int.ediv_mul_le _ (by norm_num)
  have hq0 : 0 ≤ t * sampleRate / 1000000000 :=
    Int.ediv_nonneg (mul_nonneg ht (le_of_lt h1)) (by norm_num)
  by_contra hlt
  push_neg at hlt
  have h3 : t * sampleRate < t * sampleRate / 1000000000 * (1000000000 / sampleRate) * sampleRate :=
    mul_lt_mul_of_pos_right hlt h1
  have h4 : t * sampleRate / 1000000000 * (1000000000 / sampleRate) * sampleRate
      ≤ t * sampleRate / 1000000000 * 1000000000 := by
    rw [mul_assoc]
    exact mul_le_mul_of_nonneg_left hps hq0
  norm_num at h4
  omega

/-! ## Claims on the level mapper -/

/-- C4, the claim as stated fails: a sample of 0 is written as 127, while
`round((0 + 32768) * 255 / 65535)` is 128. -/
theorem mapShortTo8bit_zero_not_rounded :
    mapShortTo8bit 0 = 127 ∧ levelMapperSpec 0 = 128 := by
  refine ⟨by decide, ?_⟩
  unfold levelMapperSpec
  norm_num [round_eq]

/-- C4 as amended: on the signed 16-bit range `mapShortTo8bit x` is the floor (not the
nearest integer) of `(x + 32768) * 255 / 65535`, and it lies in `[0, 255]`. -/
theorem mapShortTo8bit_floor (x : Int) (h1 : -32768 ≤ x) (h2 : x ≤ 32767) :
    (mapShortTo8bit x : Int) = ⌊((((x - (-32768)) * 255 : Int) : ℚ) / 65535)⌋ ∧
      mapShortTo8bit x ≤ 255 := by
  rw [mapShortTo8bit_eq x h1 h2]
  have e : (65535 : ℚ) = ((65535 : ℕ) : ℚ) := by norm_num
  rw [e, Rat.floor_intCast_div_natCast]
  constructor
  · push_cast
    omega
  · omega

/-- C4 as amended, at the sample 0. -/
theorem mapShortTo8bit_floor_witness :
    (mapShortTo8bit 0 : Int) = ⌊((((0 - (-32768)) * 255 : Int) : ℚ) / 65535)⌋ ∧
      mapShortTo8bit 0 ≤ 255 :=
  mapShortTo8bit_floor 0 (by decide) (by decide)

/-- C5: `mapShortTo8bit` is monotone on the signed 16-bit range, stays within `[0, 255]`
there, and maps -32768 to 0 and 32767 to 255. -/
theorem mapShortTo8bit_monotone (a b : Int) (ha : -32768 ≤ a) (hab : a < b) (hb : b ≤ 32767) :
    mapShortTo8bit a ≤ mapShortTo8bit b ∧ mapShortTo8bit a ≤ 255 ∧ mapShortTo8bit b ≤ 255 ∧
      mapShortTo8bit (-32768) = 0 ∧ mapShortTo8bit 32767 = 255 := by
  rw [mapShortTo8bit_eq a ha (by omega), mapShortTo8bit_eq b (by omega) hb]
  refine ⟨?_, ?_, ?_, by decide, by decide⟩ <;> omega

/-- C5 at the samples -1 and 0. -/
theorem mapShortTo8bit_monotone_witness :
    mapShortTo8bit (-1) ≤ mapShortTo8bit 0 ∧ mapShortTo8bit (-1) ≤ 255 ∧
      mapShortTo8bit 0 ≤ 255 ∧ mapShortTo8bit (-32768) = 0 ∧ mapShortTo8bit 32767 = 255 :=
  mapShortTo8bit_monotone (-1) 0 (by decide) (by decide) (by decide)

/-! ## Claims on the clock -/

/-- C1, the claim as stated fails: at 44100 Hz the stored period is 22675 ns, so 22675 ns
after the start (inside any buffer of at least one frame) the loop computes frame 1, while
`floor(22675 * 44100 / 1e9)` is 0. -/
theorem frameNumber_44100_not_floor :
    nanosecondsPerFrameOf 44100 = some 22675 ∧ frameNumberAt 22675 22675 = some 1 ∧
      targetFrameSpec 44100 22675 = 0 ∧ (22675 : Int) * 44100 < 1 * 1000000000 := by
  refine ⟨by decide, by decide, ?_, by decide⟩
  rw [targetFrameSpec_eq]
  decide

/-- C1 as amended: for a rate between 1 and 1000000000 the stored period is the integer quotient
`1000000000 / sampleRate`; when the rate divides 1000000000 the loop computes exactly
`floor(t * sampleRate / 1e9)` for every `t >= 0` within the buffer's duration; for any
rate, as long as the quotient fits in `int`, it computes `floor(t / period)`, which is
never below `floor(t * sampleRate / 1e9)`. -/
theorem frameNumber_of_period (sampleRate t frames : Int) (h1 : 1 ≤ sampleRate)
    (h2 : sampleRate ≤ 1000000000) (ht : 0 ≤ t) (hdur : t * sampleRate < frames * 1000000000)
    (hfr : frames < 2147483648) :
    nanosecondsPerFrameOf sampleRate = some (1000000000 / sampleRate) ∧
      (sampleRate ∣ 1000000000 →
        frameNumberAt (1000000000 / sampleRate) t = some (targetFrameSpec sampleRate t)) ∧
      (t / (1000000000 / sampleRate) < 2147483648 →
        frameNumberAt (1000000000 / sampleRate) t = some (t / (1000000000 / sampleRate)) ∧
          targetFrameSpec sampleRate t ≤ t / (1000000000 / sampleRate)) := by
  have hs : 0 < sampleRate := by omega
  have hp : 0 < 1000000000 / sampleRate := period_pos sampleRate hs h2
  refine ⟨nanosecondsPerFrameOf_eq sampleRate hs, ?_, ?_⟩
  · intro hd
    have hps : 1000000000 / sampleRate * sampleRate = 1000000000 := Int.ediv_mul_cancel hd
    have hq : t / (1000000000 / sampleRate) = t * sampleRate / 1000000000 := by
      have h3 : t * sampleRate / (1000000000 / sampleRate * sampleRate)
          = t / (1000000000 / sampleRate) :=
        Int.mul_ediv_mul_of_pos_left t (1000000000 / sampleRate) hs
      rw [hps] at h3
      rw [← h3]
    have hlt : t * sampleRate / 1000000000 < frames :=
      Int.ediv_lt_of_lt_mul (by norm_num) hdur
    rw [targetFrameSpec_eq, ← hq]
    exact frameNumberAt_eq _ _ hp ht (by omega)
  · intro hfit
    refine ⟨frameNumberAt_eq _ _ hp ht hfit, ?_⟩
    rw [targetFrameSpec_eq]
    exact spec_le_quotient sampleRate t hs h2 ht

/-- C1 as amended, at 8000 Hz, 375005 ns after the start of a one-second buffer. -/
theorem frameNumber_of_period_witness :
    nanosecondsPerFrameOf 8000 = some (1000000000 / 8000) ∧
      ((8000 : Int) ∣ 1000000000 →
        frameNumberAt (1000000000 / 8000) 375005 = some (targetFrameSpec 8000 375005)) ∧
      ((375005 : Int) / (1000000000 / 8000) < 2147483648 →
        frameNumberAt (1000000000 / 8000) 375005 = some (375005 / (1000000000 / 8000)) ∧
          targetFrameSpec 8000 375005 ≤ 375005 / (1000000000 / 8000)) :=
  frameNumber_of_period 8000 375005 8000 (by decide) (by decide) (by decide) (by decide)
    (by decide)

/-! ## One pass of the loop -/

theorem playbackIteration_end (c : Config) (s : PlayerState) (t : Tick)
    (he : t.endPlayback = true) : playbackIteration c s t = Outcome.finished s := by
  unfold playbackIteration
  simp [he]

theorem playbackIteration_pause (c : Config) (s : PlayerState) (t : Tick)
    (he : t.endPlayback = false) (hp : t.pausePlayback = true) :
    playbackIteration c s t = Outcome.running s := by
  unfold playbackIteration
  simp [he, hp]

theorem playbackIteration_fault (c : Config) (s : PlayerState) (t : Tick)
    (he : t.endPlayback = false) (hp : t.pausePlayback = false)
    (hf : frameNumberAt c.nanosecondsPerFrame (t.now - c.startSpecTime) = none) :
    playbackIteration c s t = Outcome.fault := by
  unfold playbackIteration
  simp [he, hp, hf]

theorem playbackIteration_exit (c : Config) (s : PlayerState) (t : Tick) (f : Int)
    (he : t.endPlayback = false) (hp : t.pausePlayback = false)
    (hf : frameNumberAt c.nanosecondsPerFrame (t.now - c.startSpecTime) = some f)
    (hge : c.totalCount ≤ f) :
    playbackIteration c s t = Outcome.finished { s with frameNumber := f } := by
  unfold playbackIteration
  simp [he, hp, hf, hge]

theorem bufferIndex_of_fit (f channels : Int) (h0 : 0 ≤ f * channels)
    (h1 : f * channels < 2147483648) : bufferIndex f channels 0 = f * channels := by
  unfold bufferIndex
  rw [toInt_of_range _ (by omega) h1, add_zero, toInt_of_range _ (by omega) h1]

theorem playbackIteration_emit (c : Config) (s : PlayerState) (t : Tick) (f sample : Int)
    (he : t.endPlayback = false) (hp : t.pausePlayback = false)
    (hf : frameNumberAt c.nanosecondsPerFrame (t.now - c.startSpecTime) = some f)
    (hlt : f < c.totalCount) (hidx : 0 ≤ bufferIndex f c.channels 0) (hch : c.channels ≠ 0)
    (hread : c.dataBuffer[(bufferIndex f c.channels 0).toNat]? = some sample) :
    playbackIteration c s t = Outcome.running
      { frameNumber := f, previousFrameNumber := f,
        framesSkippedCumulativePlaybackThread := skippedAfter s f,
        port := s.port ++ [mapShortTo8bit (toShort (Int.tdiv sample c.channels))] } := by
  unfold bufferIndex at hidx hread
  unfold playbackIteration skippedAfter
  have h1 : ¬ c.totalCount ≤ f := by omega
  have h2 : ¬ toInt (toInt (f * c.channels) + 0) < 0 := by omega
  simp only [he, hp, hf, ge_iff_le, h1, h2, hch, hread, if_false, Bool.false_eq_true, zero_add]

theorem playbackIteration_negative_index (c : Config) (s : PlayerState) (t : Tick) (f : Int)
    (he : t.endPlayback = false) (hp : t.pausePlayback = false)
    (hf : frameNumberAt c.nanosecondsPerFrame (t.now - c.startSpecTime) = some f)
    (hlt : f < c.totalCount) (hidx : bufferIndex f c.channels 0 < 0) :
    playbackIteration c s t = Outcome.fault := by
  have h1 : ¬ c.totalCount ≤ f := by omega
  unfold bufferIndex at hidx
  unfold playbackIteration
  simp only [he, hp, hf, ge_iff_le, h1, hidx, if_false, if_true, Bool.false_eq_true]

/-- Shape of a pass that reads the clock and stays below the end of the buffer. -/
theorem playbackIteration_below (c : Config) (s : PlayerState) (t : Tick) (f : Int)
    (he : t.endPlayback = false) (hp : t.pausePlayback = false)
    (hf : frameNumberAt c.nanosecondsPerFrame (t.now - c.startSpecTime) = some f)
    (hlt : f < c.totalCount) :
    playbackIteration c s t = Outcome.fault ∨
      ∃ b, playbackIteration c s t = Outcome.running
        { frameNumber := f, previousFrameNumber := f,
          framesSkippedCumulativePlaybackThread := skippedAfter s f,
          port := s.port ++ [b] } := by
  have h1 : ¬ c.totalCount ≤ f := by omega
  by_cases hidx : toInt (toInt (f * c.channels) + 0) < 0
  · left
    unfold playbackIteration
    simp only [he, hp, hf, ge_iff_le, h1, hidx, if_false, if_true, Bool.false_eq_true]
  · cases hread : c.dataBuffer[(toInt (toInt (f * c.channels) + 0)).toNat]? with
    | none =>
      left
      unfold playbackIteration
      simp only [he, hp, hf, ge_iff_le, h1, hidx, hread, if_false, Bool.false_eq_true]
    | some sample =>
      by_cases hch : c.channels = 0
      · left
        unfold playbackIteration
        simp only [he, hp, hf, ge_iff_le, h1, hch, if_false, if_true, Bool.false_eq_true]
        split
        · rfl
        · split <;> rfl
      · right
        exact ⟨_, playbackIteration_emit c s t f sample he hp hf hlt
          (by unfold bufferIndex; omega) hch (by unfold bufferIndex; exact hread)⟩

/-! ## Claims on one pass of the loop -/

/-- C10, the claim as stated fails: on a stereo buffer of 2^30 + 1 frames (2^31 + 2 samples,
`totalCount = frames`), with period 1 ns and a read 2^30 ns after the start, every assumption
of the claim holds and the pass reaches the read with `frameNumber = 2^30 < totalCount`; the
`int` product `frameNumber * channels` is 2^31 reduced to -2^31, so the read is at a negative
index, outside the buffer. -/
theorem read_index_wraps :
    (1 ≤ longStereoConfig.channels ∧ 1 ≤ longStereoConfig.nanosecondsPerFrame ∧
        longStereoConfig.startSpecTime ≤ (tickAt 1073741824).now ∧
        (longStereoConfig.dataBuffer.length : Int) = 1073741825 * longStereoConfig.channels ∧
        longStereoConfig.totalCount ≤ 1073741825) ∧
      frameNumberAt longStereoConfig.nanosecondsPerFrame
          ((tickAt 1073741824).now - longStereoConfig.startSpecTime) = some 1073741824 ∧
      (1073741824 : Int) < longStereoConfig.totalCount ∧
      bufferIndex 1073741824 longStereoConfig.channels 0 = -2147483648 ∧
      playbackIteration longStereoConfig initialState (tickAt 1073741824) = Outcome.fault := by
  refine ⟨⟨by decide, by decide, by decide, ?_, by decide⟩, by decide, by decide, by decide, ?_⟩
  · show ((List.replicate 2147483650 (0 : Int)).length : Int) = 1073741825 * 2
    rw [List.length_replicate]
    decide
  · exact playbackIteration_negative_index longStereoConfig initialState (tickAt 1073741824)
      1073741824 rfl rfl (by decide) (by decide) (by decide)

/-- C10 as amended: with `channels >= 1`, `nanosecondsPerFrame >= 1`, a clock not before
`startSpecTime`, a frame index `f = timeSinceStart / nanosecondsPerFrame` that fits in
`int`, and a buffer of `frames * channels` samples, a count that itself fits in `int`, with
`totalCount <= frames`, a pass that reads the clock computes `frameNumber = f` and either
finds `f >= totalCount` and leaves the loop with the port untouched and no buffer read, or
has `0 <= f < totalCount`, reads the `int` index `f * channels`, which lies inside
`[0, totalCount * channels)` and inside the buffer, and goes on. -/
theorem reads_in_bounds (c : Config) (s : PlayerState) (t : Tick) (frames f : Int)
    (hch : 1 ≤ c.channels) (hnpf : 1 ≤ c.nanosecondsPerFrame)
    (hclock : c.startSpecTime ≤ t.now)
    (hf : f = (t.now - c.startSpecTime) / c.nanosecondsPerFrame)
    (hfit : f < 2147483648)
    (hbuf : (c.dataBuffer.length : Int) = frames * c.channels)
    (hitems : frames * c.channels ≤ 2147483647) (htc : c.totalCount ≤ frames)
    (he : t.endPlayback = false) (hp : t.pausePlayback = false) :
    frameNumberAt c.nanosecondsPerFrame (t.now - c.startSpecTime) = some f ∧
      (c.totalCount ≤ f →
        playbackIteration c s t = Outcome.finished { s with frameNumber := f }) ∧
      (f < c.totalCount →
        0 ≤ f ∧ bufferIndex f c.channels 0 = f * c.channels ∧
        0 ≤ f * c.channels ∧ f * c.channels < c.totalCount * c.channels ∧
        c.totalCount * c.channels ≤ c.dataBuffer.length ∧
        ∃ sample,
          c.dataBuffer[(bufferIndex f c.channels 0).toNat]? = some sample ∧
          playbackIteration c s t = Outcome.running
            { frameNumber := f, previousFrameNumber := f,
              framesSkippedCumulativePlaybackThread := skippedAfter s f,
              port := s.port ++ [mapShortTo8bit (toShort (Int.tdiv sample c.channels))] }) := by
  subst hf
  have hf := frameNumberAt_eq c.nanosecondsPerFrame (t.now - c.startSpecTime)
    (by omega) (by omega) hfit
  have h0 : 0 ≤ (t.now - c.startSpecTime) / c.nanosecondsPerFrame :=
    Int.ediv_nonneg (by omega) (by omega)
  generalize (t.now - c.startSpecTime) / c.nanosecondsPerFrame = f at hf h0 ⊢
  refine ⟨hf, fun hge => playbackIteration_exit c s t f he hp hf hge, fun hlt => ?_⟩
  have hidx : 0 ≤ f * c.channels := mul_nonneg h0 (by omega)
  have hlt2 : f * c.channels < c.totalCount * c.channels :=
    mul_lt_mul_of_pos_right hlt (by omega)
  have hle0 : c.totalCount * c.channels ≤ frames * c.channels :=
    mul_le_mul_of_nonneg_right htc (by omega)
  have hle : c.totalCount * c.channels ≤ c.dataBuffer.length := by
    rw [hbuf]
    exact hle0
  have hbi : bufferIndex f c.channels 0 = f * c.channels :=
    bufferIndex_of_fit f c.channels hidx (by omega)
  have hin : (bufferIndex f c.channels 0).toNat < c.dataBuffer.length := by
    rw [hbi]
    have := Int.toNat_of_nonneg hidx
    omega
  refine ⟨h0, hbi, hidx, hlt2, hle, c.dataBuffer[(bufferIndex f c.channels 0).toNat], ?_, ?_⟩
  · exact List.getElem?_eq_getElem hin
  · exact playbackIteration_emit c s t f _ he hp hf hlt (by rw [hbi]; exact hidx) (by omega)
      (List.getElem?_eq_getElem hin)

/-- C10 as amended, on a two-frame stereo buffer, 1500 ns after the start with a period of
1000 ns. -/
theorem reads_in_bounds_witness :
    frameNumberAt stereoConfig.nanosecondsPerFrame
        ((tickAt 1500).now - stereoConfig.startSpecTime) = some 1 ∧
      (stereoConfig.totalCount ≤ 1 →
        playbackIteration stereoConfig initialState (tickAt 1500)
          = Outcome.finished { initialState with frameNumber := 1 }) ∧
      ((1 : Int) < stereoConfig.totalCount →
        (0 : Int) ≤ 1 ∧ bufferIndex 1 stereoConfig.channels 0 = 1 * stereoConfig.channels ∧
        0 ≤ 1 * stereoConfig.channels ∧
        1 * stereoConfig.channels < stereoConfig.totalCount * stereoConfig.channels ∧
        stereoConfig.totalCount * stereoConfig.channels ≤ stereoConfig.dataBuffer.length ∧
        ∃ sample,
          stereoConfig.dataBuffer[(bufferIndex 1 stereoConfig.channels 0).toNat]?
            = some sample ∧
          playbackIteration stereoConfig initialState (tickAt 1500) = Outcome.running
            { frameNumber := 1, previousFrameNumber := 1,
              framesSkippedCumulativePlaybackThread := skippedAfter initialState 1,
              port := initialState.port ++
                [mapShortTo8bit (toShort (Int.tdiv sample stereoConfig.channels))] }) :=
  reads_in_bounds stereoConfig initialState (tickAt 1500) 2 1 (by decide) (by decide)
    (by decide) (by decide) (by decide) (by decide) (by decide) (by decide) rfl rfl

/-- C3, the code at the failing input: on a stereo buffer whose first frame is
(32767, 32767) the byte written for frame 0 is 191, the level of 32767 / 2 = 16383, while the
first channel's sample, and the average of the two channels as well, is 32767 with level
`mapShortTo8bit 32767 = 255`. -/
theorem stereo_sample_is_halved :
    playbackIteration stereoConfig initialState (tickAt 0)
        = Outcome.running
          { frameNumber := 0, previousFrameNumber := 0,
            framesSkippedCumulativePlaybackThread := 0, port := [191] } ∧
      stereoConfig.dataBuffer[(bufferIndex 0 stereoConfig.channels 0).toNat]? = some 32767 ∧
      stereoConfig.dataBuffer[(bufferIndex 0 stereoConfig.channels 1).toNat]? = some 32767 ∧
      toShort (Int.tdiv 32767 stereoConfig.channels) = 16383 ∧
      mapShortTo8bit 16383 = 191 ∧
      mapShortTo8bit 32767 = 255 ∧
      mapShortTo8bit (toShort (Int.tdiv (32767 + 32767) stereoConfig.channels)) = 255 := by
  decide

/-! ## Runs of the loop: unfolding -/

theorem playbackFunction_cons_end (c : Config) (s : PlayerState) (t : Tick) (ts : List Tick)
    (he : t.endPlayback = true) : playbackFunction c s (t :: ts) = Outcome.finished s := by
  rw [playbackFunction, playbackIteration_end c s t he]

theorem playbackFunction_cons_pause (c : Config) (s : PlayerState) (t : Tick) (ts : List Tick)
    (he : t.endPlayback = false) (hp : t.pausePlayback = true) :
    playbackFunction c s (t :: ts) = playbackFunction c s ts := by
  rw [playbackFunction, playbackIteration_pause c s t he hp]

theorem clockReads_cons_end (t : Tick) (ts : List Tick) (he : t.endPlayback = true) :
    clockReads (t :: ts) = clockReads ts := by
  simp [clockReads, he]

theorem clockReads_cons_pause (t : Tick) (ts : List Tick) (hp : t.pausePlayback = true) :
    clockReads (t :: ts) = clockReads ts := by
  simp [clockReads, hp]

theorem clockReads_cons_read (t : Tick) (ts : List Tick) (he : t.endPlayback = false)
    (hp : t.pausePlayback = false) : clockReads (t :: ts) = t.now :: clockReads ts := by
  simp [clockReads, he, hp]

/-! ## Pause and resume -/

/-- A pass whose clock value is at most one period after the value that produced
`previousFrameNumber` leaves the drift counter alone. -/
theorem no_skip_run (c : Config) (hnpf : 0 ≤ c.nanosecondsPerFrame)
    (htc : c.totalCount ≤ 2147483647) :
    ∀ (ticks : List Tick) (s : PlayerState) (a : Int), c.startSpecTime ≤ a →
      s.previousFrameNumber = (a - c.startSpecTime) / c.nanosecondsPerFrame →
      s.previousFrameNumber < 2147483647 →
      s.framesSkippedCumulativePlaybackThread = 0 →
      List.Chain (fun x y => x ≤ y ∧ y ≤ x + c.nanosecondsPerFrame) a (clockReads ticks) →
      ∀ s1, playbackFunction c s ticks = Outcome.running s1 ∨
          playbackFunction c s ticks = Outcome.finished s1 →
        s1.framesSkippedCumulativePlaybackThread = 0 := by
  intro ticks
  induction ticks with
  | nil =>
    intro s a _ _ _ hs _ s1 h
    simp only [playbackFunction] at h
    rcases h with h | h
    · cases h; exact hs
    · cases h
  | cons t ts ih =>
    intro s a ha hprev hlt hs hchain s1 h
    cases he : t.endPlayback with
    | true =>
      rw [playbackFunction_cons_end c s t ts he] at h
      rcases h with h | h
      · cases h
      · cases h; exact hs
    | false =>
      cases hp : t.pausePlayback with
      | true =>
        rw [playbackFunction_cons_pause c s t ts he hp] at h
        rw [clockReads_cons_pause t ts hp] at hchain
        exact ih s a ha hprev hlt hs hchain s1 h
      | false =>
        rw [clockReads_cons_read t ts he hp, List.chain_cons] at hchain
        obtain ⟨⟨h1, h2⟩, hrest⟩ := hchain
        rcases eq_or_lt_of_le hnpf with h0 | hpos
        · have hf : frameNumberAt c.nanosecondsPerFrame (t.now - c.startSpecTime) = none := by
            unfold frameNumberAt
            rw [if_pos h0.symm]
          rw [playbackFunction, playbackIteration_fault c s t he hp hf] at h
          rcases h with h | h <;> cases h
        · have hq1 : (a - c.startSpecTime) / c.nanosecondsPerFrame
              ≤ (t.now - c.startSpecTime) / c.nanosecondsPerFrame :=
            Int.ediv_le_ediv hpos (by omega)
          have hq2 : (t.now - c.startSpecTime) / c.nanosecondsPerFrame
              ≤ (a - c.startSpecTime) / c.nanosecondsPerFrame + 1 := by
            have h3 := Int.add_mul_ediv_right (a - c.startSpecTime) 1 (ne_of_gt hpos)
            rw [one_mul] at h3
            rw [← h3]
            exact Int.ediv_le_ediv hpos (by omega)
          have hf := frameNumberAt_eq c.nanosecondsPerFrame (t.now - c.startSpecTime) hpos
            (by omega) (by omega)
          rw [← hprev] at hq1 hq2
          generalize hfd : (t.now - c.startSpecTime) / c.nanosecondsPerFrame = f at hf hq1 hq2
          by_cases hge : c.totalCount ≤ f
          · rw [playbackFunction, playbackIteration_exit c s t f he hp hf hge] at h
            rcases h with h | h
            · cases h
            · cases h; exact hs
          · have hskip : skippedAfter s f = 0 := by
              unfold skippedAfter
              rw [toInt_of_range (f - s.previousFrameNumber) (by omega) (by omega),
                if_neg (by omega)]
              exact hs
            rcases playbackIteration_below c s t f he hp hf (by omega) with hit | ⟨b, hit⟩
            · rw [playbackFunction, hit] at h
              rcases h with h | h <;> cases h
            · rw [playbackFunction, hit] at h
              simp only at h
              refine ih _ t.now (by omega) ?_ ?_ ?_ hrest s1 h
              · exact hfd.symm
              · show f < 2147483647
                omega
              · exact hskip

/-- C6: for every sample rate (the period being the one `main` stores) and every sequence
of clock reads in which the first read is at most one period after `startSpecTime` and each
later read is at most one period after the one before, every run of the loop that yields a
state, still running or ended, has `framesSkippedCumulativePlaybackThread = 0`; the only
other outcome is a fault. -/
theorem no_drift_when_pacing (c : Config) (sampleRate : Int) (ticks : List Tick)
    (hrate : 1 ≤ sampleRate)
    (hperiod : nanosecondsPerFrameOf sampleRate = some c.nanosecondsPerFrame)
    (htc : c.totalCount ≤ 2147483647)
    (hpace : List.Chain (fun x y => x ≤ y ∧ y ≤ x + c.nanosecondsPerFrame) c.startSpecTime
      (clockReads ticks)) :
    playbackFunction c initialState ticks = Outcome.fault ∨
      ∃ s, (playbackFunction c initialState ticks = Outcome.running s ∨
          playbackFunction c initialState ticks = Outcome.finished s) ∧
        s.framesSkippedCumulativePlaybackThread = 0 := by
  have hnpf : 0 ≤ c.nanosecondsPerFrame := by
    rw [nanosecondsPerFrameOf_eq sampleRate (by omega)] at hperiod
    rw [← Option.some.inj hperiod]
    exact Int.ediv_nonneg (by norm_num) (by omega)
  have key := no_skip_run c hnpf htc ticks initialState c.startSpecTime (le_refl _)
    (by simp [initialState]) (by decide) rfl hpace
  cases hrun : playbackFunction c initialState ticks with
  | running s => exact Or.inr ⟨s, Or.inl rfl, key s (Or.inl hrun)⟩
  | finished s => exact Or.inr ⟨s, Or.inr rfl, key s (Or.inr hrun)⟩
  | fault => exact Or.inl rfl

/-- C6 on three silent frames at 8000 Hz: reads 0, 100000, 225000 and 350000 ns after the
start, with a paused pass in between, then a read past the end. -/
theorem no_drift_when_pacing_witness :
    playbackFunction (silentConfig 3 8000 0) initialState
        [tickAt 0, tickAt 100000, pausedTick 100500, tickAt 225000, tickAt 350000,
          tickAt 475000] = Outcome.fault ∨
      ∃ s, (playbackFunction (silentConfig 3 8000 0) initialState
            [tickAt 0, tickAt 100000, pausedTick 100500, tickAt 225000, tickAt 350000,
              tickAt 475000] = Outcome.running s ∨
          playbackFunction (silentConfig 3 8000 0) initialState
            [tickAt 0, tickAt 100000, pausedTick 100500, tickAt 225000, tickAt 350000,
              tickAt 475000] = Outcome.finished s) ∧
        s.framesSkippedCumulativePlaybackThread = 0 :=
  no_drift_when_pacing (silentConfig 3 8000 0) 8000
    [tickAt 0, tickAt 100000, pausedTick 100500, tickAt 225000, tickAt 350000, tickAt 475000]
    (by decide) (by decide) (by decide)
    (by
      rw [show clockReads [tickAt 0, tickAt 100000, pausedTick 100500, tickAt 225000,
        tickAt 350000, tickAt 475000] = [0, 100000, 225000, 350000, 475000] from by decide]
      simp only [List.chain_cons, List.Chain.nil, and_true]
      decide)

/-! ## The drift poll -/

theorem pollFramesSkipped_stable (ui p : Int) (h1 : ui ≤ p) (h2 : p - ui < 2147483648) :
    pollFramesSkipped ⟨p, ui⟩ (stableLoads p) = (p - ui, ⟨p, p⟩) := by
  unfold pollFramesSkipped stableLoads
  by_cases h : p = ui
  · subst h
    simp
  · simp only [ne_eq, h, not_false_eq_true, if_true]
    rw [toInt_of_range _ (by omega) h2]

theorem pollFramesSkipped_counters (g : DriftCounters) (l : PollLoads) :
    (pollFramesSkipped g l).2.framesSkippedCumulativePlaybackThread
        = g.framesSkippedCumulativePlaybackThread ∧
      (pollFramesSkipped g l).2.framesSkippedCumulativeUIThread
        = if l.load309 ≠ g.framesSkippedCumulativeUIThread then l.load313
          else g.framesSkippedCumulativeUIThread := by
  unfold pollFramesSkipped
  by_cases h : l.load309 = g.framesSkippedCumulativeUIThread
  · simp [h]
  · simp [h]

theorem uiPolls_spec : ∀ (reads : List Int) (ui : Int),
    List.Chain (fun x y => x ≤ y ∧ y - x < 2147483648) ui reads →
    (uiPolls ui (reads.map stableLoads)).1
        = List.zipWith (fun now before => now - before) reads (ui :: reads) ∧
      (∀ d ∈ (uiPolls ui (reads.map stableLoads)).1, 0 ≤ d) ∧
      (uiPolls ui (reads.map stableLoads)).2 = reads.getLastD ui ∧
      (uiPolls ui (reads.map stableLoads)).1.sum = reads.getLastD ui - ui := by
  intro reads
  induction reads with
  | nil =>
    intro ui _
    simp [uiPolls]
  | cons p ps ih =>
    intro ui hchain
    rw [List.chain_cons] at hchain
    obtain ⟨⟨h1, h2⟩, hrest⟩ := hchain
    have hpoll := pollFramesSkipped_stable ui p h1 h2
    obtain ⟨ih1, ih2, ih3, ih4⟩ := ih p hrest
    have hload : (stableLoads p).load309 = p := rfl
    simp only [List.map_cons, uiPolls, hload, hpoll, List.zipWith_cons_cons, List.getLastD_cons,
      List.sum_cons]
    refine ⟨by rw [ih1], ?_, ih3, by rw [ih4]; ring⟩
    intro d hd
    rcases List.mem_cons.1 hd with h | h
    · omega
    · exact ih2 d h

/-- C7, the claim as stated fails, in two ways.  When the playback counter has grown by 2^31
since the previous poll, the value stored in the `int diff` and printed is -2147483648,
neither the difference nor non-negative.  And when the playback thread adds 2 to the counter
between the loads at lines 311 and 313 (counter 5, then 7), the poll prints 5 and stores 7,
the next poll prints 0, and the printed values sum to 5 while the counter read is 7. -/
theorem poll_wraps_and_loses_counts :
    pollFramesSkipped ⟨2147483648, 0⟩ (stableLoads 2147483648)
        = (-2147483648, ⟨2147483648, 2147483648⟩) ∧
      uiPolls 0 [⟨5, 5, 7⟩, stableLoads 7] = ([5, 0], 7) ∧
      ([5, 0] : List Int).sum ≠ 7 := by
  decide

/-- C7 as amended: if the playback counter does not change while a poll runs (its three
loads agree), never decreases, and grows by less than 2^31 between consecutive polls (the
first poll counting from 0), each poll reports the growth since the previous poll, which is
non-negative; the polls leave the UI counter at the last value read; the reported values sum
to that value.  In every case a poll stores nothing to the playback counter, and it sets the
UI counter to the value loaded at line 313 when the value loaded at line 309 differs from
it, leaving it alone otherwise. -/
theorem poll_reports_growth (reads : List Int)
    (hgrow : List.Chain (fun x y => x ≤ y ∧ y - x < 2147483648) 0 reads) :
    (uiPolls 0 (reads.map stableLoads)).1
        = List.zipWith (fun now before => now - before) reads (0 :: reads) ∧
      (∀ d ∈ (uiPolls 0 (reads.map stableLoads)).1, 0 ≤ d) ∧
      (uiPolls 0 (reads.map stableLoads)).2 = reads.getLastD 0 ∧
      (uiPolls 0 (reads.map stableLoads)).1.sum = reads.getLastD 0 ∧
      ∀ (g : DriftCounters) (l : PollLoads),
        (pollFramesSkipped g l).2.framesSkippedCumulativePlaybackThread
            = g.framesSkippedCumulativePlaybackThread ∧
          (pollFramesSkipped g l).2.framesSkippedCumulativeUIThread
            = if l.load309 ≠ g.framesSkippedCumulativeUIThread then l.load313
              else g.framesSkippedCumulativeUIThread := by
  obtain ⟨h1, h2, h3, h4⟩ := uiPolls_spec reads 0 hgrow
  exact ⟨h1, h2, h3, by rw [h4]; ring, pollFramesSkipped_counters⟩

/-- C7 as amended, for polls that read 0, 3, 3 and 10. -/
theorem poll_reports_growth_witness :
    (uiPolls 0 ([0, 3, 3, 10].map stableLoads)).1
        = List.zipWith (fun now before => now - before) [0, 3, 3, 10] (0 :: [0, 3, 3, 10]) ∧
      (∀ d ∈ (uiPolls 0 ([0, 3, 3, 10].map stableLoads)).1, 0 ≤ d) ∧
      (uiPolls 0 ([0, 3, 3, 10].map stableLoads)).2 = [0, 3, 3, 10].getLastD 0 ∧
      (uiPolls 0 ([0, 3, 3, 10].map stableLoads)).1.sum = [0, 3, 3, 10].getLastD 0 ∧
      ∀ (g : DriftCounters) (l : PollLoads),
        (pollFramesSkipped g l).2.framesSkippedCumulativePlaybackThread
            = g.framesSkippedCumulativePlaybackThread ∧
          (pollFramesSkipped g l).2.framesSkippedCumulativeUIThread
            = if l.load309 ≠ g.framesSkippedCumulativeUIThread then l.load313
              else g.framesSkippedCumulativeUIThread :=
  poll_reports_growth [0, 3, 3, 10] (by
    simp only [List.chain_cons, List.Chain.nil, and_true]
    decide)

/-! ## Scenario 1: a silent second under a perfect clock -/

theorem mapShortTo8bit_silence : mapShortTo8bit (toShort (Int.tdiv 0 1)) = 127 := by decide

theorem perfectClock_succ (c : Config) (k n : Nat) :
    perfectClock c k (n + 1)
      = tickAt (c.startSpecTime + (k : Int) * c.nanosecondsPerFrame) :: perfectClock c (k + 1) n :=
  rfl

theorem frameNumberAt_perfect (c : Config) (k : Nat) (hnpf : 0 < c.nanosecondsPerFrame)
    (hk : (k : Int) < 2147483648) :
    frameNumberAt c.nanosecondsPerFrame
      ((tickAt (c.startSpecTime + (k : Int) * c.nanosecondsPerFrame)).now - c.startSpecTime)
      = some (k : Int) := by
  have e2 : (tickAt (c.startSpecTime + (k : Int) * c.nanosecondsPerFrame)).now - c.startSpecTime
      = (k : Int) * c.nanosecondsPerFrame := by
    show c.startSpecTime + (k : Int) * c.nanosecondsPerFrame - c.startSpecTime = _
    ring
  rw [e2]
  have h3 := frameNumberAt_eq c.nanosecondsPerFrame ((k : Int) * c.nanosecondsPerFrame) hnpf
    (mul_nonneg (by omega) (le_of_lt hnpf))
  rw [Int.mul_ediv_cancel _ (ne_of_gt hnpf)] at h3
  exact h3 hk

/-- Run of the loop on a mono buffer of `N` zeros under a perfect clock, from read `k`. -/
theorem perfect_run (c : Config) (N : Nat) (hbuf : c.dataBuffer = List.replicate N 0)
    (htc : c.totalCount = N) (hN : (N : Int) < 2147483648) (hch : c.channels = 1)
    (hnpf : 0 < c.nanosecondsPerFrame) :
    ∀ (m k extra : Nat) (s : PlayerState), k + m = N →
      s.previousFrameNumber ≤ k → (k : Int) ≤ s.previousFrameNumber + 1 →
      playbackFunction c s (perfectClock c k (m + 1 + extra)) = Outcome.finished
        { frameNumber := N,
          previousFrameNumber := if m = 0 then s.previousFrameNumber else (N : Int) - 1,
          framesSkippedCumulativePlaybackThread := s.framesSkippedCumulativePlaybackThread,
          port := s.port ++ List.replicate m 127 } := by
  intro m
  induction m with
  | zero =>
    intro k extra s hk _ _
    have hkN : k = N := by omega
    subst hkN
    have e : 0 + 1 + extra = extra + 1 := by omega
    rw [e, perfectClock_succ, playbackFunction]
    have hf := frameNumberAt_perfect c k hnpf hN
    rw [playbackIteration_exit c s (tickAt _) (k : Int) rfl rfl hf (by omega)]
    simp
  | succ m ih =>
    intro k extra s hk hp1 hp2
    have e : m + 1 + 1 + extra = (m + 1 + extra) + 1 := by omega
    rw [e, perfectClock_succ, playbackFunction]
    have hf := frameNumberAt_perfect c k hnpf (by omega)
    have hbi : bufferIndex (k : Int) c.channels 0 = (k : Int) := by
      rw [hch, bufferIndex_of_fit _ _ (by omega) (by omega), mul_one]
    have hread : c.dataBuffer[(bufferIndex (k : Int) c.channels 0).toNat]? = some 0 := by
      rw [hbi, hbuf, Int.toNat_ofNat]
      exact List.getElem?_replicate_of_lt (by omega)
    have hc0 : c.channels ≠ 0 := by rw [hch]; decide
    have hidx : 0 ≤ bufferIndex (k : Int) c.channels 0 := by rw [hbi]; omega
    rw [playbackIteration_emit c s (tickAt _) (k : Int) 0 rfl rfl hf (by omega) hidx hc0 hread]
    simp only
    have hskip : skippedAfter s (k : Int) = s.framesSkippedCumulativePlaybackThread := by
      unfold skippedAfter
      rw [toInt_of_range ((k : Int) - s.previousFrameNumber) (by omega) (by omega),
        if_neg (by omega)]
    rw [ih (k + 1) extra _ (by omega) (by simp) (by simp), hskip, hch, mapShortTo8bit_silence]
    have hport : s.port ++ [127] ++ List.replicate m 127
        = s.port ++ List.replicate (m + 1) 127 := by
      rw [List.append_assoc]
      rfl
    rw [hport]
    congr 2
    by_cases hm : m = 0
    · subst hm
      simp only [if_true]
      have : (N : Int) = (k : Int) + 1 := by omega
      simp [this]
    · simp [hm]

/-- Helper for scenario 1: the run of the loop on 8000 silent mono frames at 8000 Hz under
a perfect clock that offers at least 8001 reads. -/
theorem scenario_one_run (start : Int) (extra : Nat) :
    playbackFunction (silentConfig 8000 8000 start) initialState
        (perfectClock (silentConfig 8000 8000 start) 0 (8001 + extra))
      = Outcome.finished
          { frameNumber := 8000, previousFrameNumber := 7999,
            framesSkippedCumulativePlaybackThread := 0, port := List.replicate 8000 127 } := by
  have hnpf : 0 < (silentConfig 8000 8000 start).nanosecondsPerFrame := by
    show 0 < (nanosecondsPerFrameOf 8000).getD 0
    decide
  have h := perfect_run (silentConfig 8000 8000 start) 8000 rfl rfl (by decide) rfl hnpf
    8000 0 extra initialState rfl (by decide) (by decide)
  have e : 8000 + 1 + extra = 8001 + extra := by omega
  rw [e] at h
  rw [h]
  rfl

/-! ## Drift accounting -/

theorem countP_pos_range (d : Nat) :
    (List.range d).countP (fun j => decide (0 < j)) = d - 1 := by
  induction d with
  | zero => rfl
  | succ d ih =>
    rw [List.range_succ, List.countP_append, ih]
    cases d with
    | zero => rfl
    | succ d => simp

theorem unvisitedBelow_append_ge (p : Int) (T U : List Int) (hU : ∀ x ∈ U, p ≤ x) :
    unvisitedBelow p (T ++ U) = unvisitedBelow p T := by
  unfold unvisitedBelow
  apply List.countP_congr
  intro k hk
  have hk1 : k < p.toNat := List.mem_range.1 hk
  have hk2 : (k : Int) < p := by omega
  have hnot : (k : Int) ∉ U := fun hmem => by
    have := hU _ hmem
    omega
  simp [hnot]

theorem unvisitedBelow_step (p f : Int) (T : List Int) (hp : 0 ≤ p) (hpf : p ≤ f)
    (hT : ∀ x ∈ T, x ≤ p) (hmem : p = 0 ∨ p ∈ T) :
    (unvisitedBelow f (T ++ [f]) : Int)
      = unvisitedBelow p T + (if f - p > 1 then f - p - 1 else 0) := by
  obtain ⟨P, rfl⟩ := Int.eq_ofNat_of_zero_le hp
  obtain ⟨d, rfl⟩ : ∃ d : Nat, f = (P : Int) + (d : Int) :=
    ⟨(f - P).toNat, by have := Int.toNat_of_nonneg (show 0 ≤ f - (P : Int) by omega); omega⟩
  have e1 : ((P : Int) + (d : Int)).toNat = P + d := by omega
  unfold unvisitedBelow
  rw [e1, Int.toNat_ofNat, List.range_add, List.countP_append, List.countP_map]
  have hfirst : (List.range P).countP
      (fun k : Nat => decide (0 < k) && !decide ((k : Int) ∈ T ++ [(P : Int) + (d : Int)]))
      = (List.range P).countP (fun k : Nat => decide (0 < k) && !decide ((k : Int) ∈ T)) := by
    apply List.countP_congr
    intro k hk
    have hk1 : k < P := List.mem_range.1 hk
    have hne : ¬ ((k : Int) = (P : Int) + (d : Int)) := by omega
    simp [hne]
  have hsecond : (List.range d).countP
      ((fun k : Nat => decide (0 < k) && !decide ((k : Int) ∈ T ++ [(P : Int) + (d : Int)])) ∘
        fun x => P + x)
      = (List.range d).countP (fun j => decide (0 < j)) := by
    apply List.countP_congr
    intro j hj
    have hj1 : j < d := List.mem_range.1 hj
    have hne : ¬ (((P + j : Nat) : Int) = (P : Int) + (d : Int)) := by omega
    simp only [Function.comp, List.mem_append, List.mem_singleton, hne, or_false,
      Bool.and_eq_true, decide_eq_true_eq, Bool.not_eq_true', decide_eq_false_iff_not]
    constructor
    · rintro ⟨h1, h2⟩
      by_contra h0
      have hj0 : j = 0 := by omega
      subst hj0
      rcases hmem with h | h
      · omega
      · exact h2 (by simpa using h)
    · intro h0
      refine ⟨by omega, fun hin => ?_⟩
      have := hT _ hin
      omega
  rw [hfirst, hsecond, countP_pos_range]
  split_ifs with h <;> omega

theorem targetFrames_cons_end (c : Config) (t : Tick) (ts : List Tick)
    (he : t.endPlayback = true) : targetFrames c (t :: ts) = targetFrames c ts := by
  unfold targetFrames
  rw [clockReads_cons_end t ts he]

theorem targetFrames_cons_pause (c : Config) (t : Tick) (ts : List Tick)
    (hp : t.pausePlayback = true) : targetFrames c (t :: ts) = targetFrames c ts := by
  unfold targetFrames
  rw [clockReads_cons_pause t ts hp]

theorem targetFrames_cons_read (c : Config) (t : Tick) (ts : List Tick) (f : Int)
    (he : t.endPlayback = false) (hp : t.pausePlayback = false)
    (hf : frameNumberAt c.nanosecondsPerFrame (t.now - c.startSpecTime) = some f) :
    targetFrames c (t :: ts) = f :: targetFrames c ts := by
  unfold targetFrames
  rw [clockReads_cons_read t ts he hp, List.filterMap_cons, hf]

/-- Frames computed from later reads of a non-decreasing clock are not below the frame of
an earlier instant, as long as they fit in `int`. -/
theorem targetFrames_ge (c : Config) (hnpf : 0 < c.nanosecondsPerFrame) (ticks : List Tick)
    (a : Int) (ha : c.startSpecTime ≤ a)
    (hclock : List.Chain (fun x y => x ≤ y) a (clockReads ticks))
    (hfit : ∀ now ∈ clockReads ticks,
      (now - c.startSpecTime) / c.nanosecondsPerFrame < 2147483648) :
    ∀ x ∈ targetFrames c ticks, (a - c.startSpecTime) / c.nanosecondsPerFrame ≤ x := by
  intro x hx
  unfold targetFrames at hx
  obtain ⟨now, hnow, hfx⟩ := List.mem_filterMap.1 hx
  have hle : a ≤ now := List.Chain.rel hclock hnow
  rw [frameNumberAt_eq _ _ hnpf (by omega) (hfit now hnow)] at hfx
  rw [← Option.some.inj hfx]
  exact Int.ediv_le_ediv hnpf (by omega)

/-- Invariant of the drift counter along a run with a non-decreasing clock whose frame
indices fit in `int`. -/
theorem drift_invariant (c : Config) (hnpf : 0 < c.nanosecondsPerFrame) :
    ∀ (ticks : List Tick) (s : PlayerState) (a : Int) (T : List Int),
      c.startSpecTime ≤ a →
      List.Chain (fun x y => x ≤ y) a (clockReads ticks) →
      (∀ now ∈ clockReads ticks,
        (now - c.startSpecTime) / c.nanosecondsPerFrame < 2147483648) →
      0 ≤ s.previousFrameNumber →
      s.previousFrameNumber ≤ (a - c.startSpecTime) / c.nanosecondsPerFrame →
      (∀ x ∈ T, x ≤ s.previousFrameNumber) →
      (s.previousFrameNumber = 0 ∨ s.previousFrameNumber ∈ T) →
      s.framesSkippedCumulativePlaybackThread = unvisitedBelow s.previousFrameNumber T →
      ∀ s1, playbackFunction c s ticks = Outcome.running s1 ∨
          playbackFunction c s ticks = Outcome.finished s1 →
        s1.framesSkippedCumulativePlaybackThread
          = unvisitedBelow s1.previousFrameNumber (T ++ targetFrames c ticks) := by
  intro ticks
  induction ticks with
  | nil =>
    intro s a T _ _ _ _ _ _ _ hs s1 h
    simp only [playbackFunction] at h
    rcases h with h | h
    · cases h
      simpa [targetFrames, clockReads] using hs
    · cases h
  | cons t ts ih =>
    intro s a T ha hclock hfit h0 hprev hT hmem hs s1 h
    have hlater : ∀ x ∈ targetFrames c (t :: ts), s.previousFrameNumber ≤ x := fun x hx =>
      le_trans hprev (targetFrames_ge c hnpf (t :: ts) a ha hclock hfit x hx)
    have hstay : s.framesSkippedCumulativePlaybackThread
        = unvisitedBelow s.previousFrameNumber (T ++ targetFrames c (t :: ts)) := by
      rw [unvisitedBelow_append_ge _ _ _ hlater]
      exact hs
    cases he : t.endPlayback with
    | true =>
      rw [playbackFunction_cons_end c s t ts he] at h
      rcases h with h | h
      · cases h
      · cases h; exact hstay
    | false =>
      cases hp : t.pausePlayback with
      | true =>
        rw [playbackFunction_cons_pause c s t ts he hp] at h
        rw [clockReads_cons_pause t ts hp] at hclock hfit
        rw [targetFrames_cons_pause c t ts hp]
        exact ih s a T ha hclock hfit h0 hprev hT hmem hs s1 h
      | false =>
        rw [clockReads_cons_read t ts he hp] at hclock hfit
        rw [List.chain_cons] at hclock
        obtain ⟨h1, hrest⟩ := hclock
        have hfitnow := hfit t.now (List.mem_cons_self _ _)
        have hf := frameNumberAt_eq c.nanosecondsPerFrame (t.now - c.startSpecTime) hnpf
          (by omega) hfitnow
        have hq1 : (a - c.startSpecTime) / c.nanosecondsPerFrame
            ≤ (t.now - c.startSpecTime) / c.nanosecondsPerFrame :=
          Int.ediv_le_ediv hnpf (by omega)
        generalize hfd : (t.now - c.startSpecTime) / c.nanosecondsPerFrame = f at hf hq1
        by_cases hge : c.totalCount ≤ f
        · rw [playbackFunction, playbackIteration_exit c s t f he hp hf hge] at h
          rcases h with h | h
          · cases h
          · cases h; exact hstay
        · rcases playbackIteration_below c s t f he hp hf (by omega) with hit | ⟨b, hit⟩
          · rw [playbackFunction, hit] at h
            rcases h with h | h <;> cases h
          · rw [playbackFunction, hit] at h
            simp only at h
            rw [targetFrames_cons_read c t ts f he hp hf]
            have happ : T ++ f :: targetFrames c ts = (T ++ [f]) ++ targetFrames c ts := by
              simp
            rw [happ]
            refine ih _ t.now (T ++ [f]) (by omega) hrest
              (fun now hnow => hfit now (List.mem_cons_of_mem _ hnow)) ?_ ?_ ?_ ?_ ?_ s1 h
            · show 0 ≤ f
              omega
            · show f ≤ (t.now - c.startSpecTime) / c.nanosecondsPerFrame
              omega
            · intro x hx
              show x ≤ f
              rcases List.mem_append.1 hx with hx1 | hx1
              · have := hT x hx1
                omega
              · have := List.mem_singleton.1 hx1
                omega
            · right
              show f ∈ T ++ [f]
              simp
            · show skippedAfter s f = ((unvisitedBelow f (T ++ [f]) : Nat) : Int)
              rw [unvisitedBelow_step s.previousFrameNumber f T h0 (by omega) hT hmem, ← hs]
              have hflt : f < 2147483648 := by rw [← hfd]; exact hfitnow
              unfold skippedAfter
              rw [toInt_of_range (f - s.previousFrameNumber) (by omega) (by omega)]
              split_ifs with hgt
              · rw [toInt_of_range (f - s.previousFrameNumber - 1) (by omega) (by omega)]
              · omega

/-- The possible results of one pass. -/
theorem playbackIteration_cases (c : Config) (s : PlayerState) (t : Tick) :
    playbackIteration c s t = Outcome.fault ∨
      (∃ f, playbackIteration c s t = Outcome.finished { s with frameNumber := f }) ∨
      (t.pausePlayback = true ∧ playbackIteration c s t = Outcome.running s) ∨
      (t.pausePlayback = false ∧ ∃ f b, playbackIteration c s t = Outcome.running
        { frameNumber := f, previousFrameNumber := f,
          framesSkippedCumulativePlaybackThread := skippedAfter s f,
          port := s.port ++ [b] }) := by
  cases he : t.endPlayback with
  | true => exact Or.inr (Or.inl ⟨s.frameNumber, playbackIteration_end c s t he⟩)
  | false =>
    cases hp : t.pausePlayback with
    | true => exact Or.inr (Or.inr (Or.inl ⟨rfl, playbackIteration_pause c s t he hp⟩))
    | false =>
      cases hf : frameNumberAt c.nanosecondsPerFrame (t.now - c.startSpecTime) with
      | none => exact Or.inl (playbackIteration_fault c s t he hp hf)
      | some f =>
        by_cases hge : c.totalCount ≤ f
        · exact Or.inr (Or.inl ⟨f, playbackIteration_exit c s t f he hp hf hge⟩)
        · rcases playbackIteration_below c s t f he hp hf (by omega) with hit | ⟨b, hit⟩
          · exact Or.inl hit
          · exact Or.inr (Or.inr (Or.inr ⟨rfl, f, b, hit⟩))

/-- Effect of one pass on the drift counter. -/
theorem playbackIteration_drift (c : Config) (s s1 : PlayerState) (t : Tick) :
    (playbackIteration c s t = Outcome.running s1 → t.pausePlayback = false →
        s1.framesSkippedCumulativePlaybackThread = skippedAfter s s1.frameNumber) ∧
      (playbackIteration c s t = Outcome.running s1 → t.pausePlayback = true →
        s1.framesSkippedCumulativePlaybackThread = s.framesSkippedCumulativePlaybackThread) ∧
      (playbackIteration c s t = Outcome.finished s1 →
        s1.framesSkippedCumulativePlaybackThread = s.framesSkippedCumulativePlaybackThread) ∧
      (playbackIteration c s t = Outcome.running s1 ∨
          playbackIteration c s t = Outcome.finished s1 →
        s.framesSkippedCumulativePlaybackThread
          ≤ s1.framesSkippedCumulativePlaybackThread) := by
  have hmono : ∀ f, s.framesSkippedCumulativePlaybackThread ≤ skippedAfter s f := by
    intro f
    unfold skippedAfter
    have hr := toInt_range (f - s.previousFrameNumber)
    generalize toInt (f - s.previousFrameNumber) = diff at hr ⊢
    split_ifs with hgt
    · rw [toInt_of_range (diff - 1) (by omega) (by omega)]
      omega
    · exact le_refl _
  rcases playbackIteration_cases c s t with h | ⟨f, h⟩ | ⟨hp, h⟩ | ⟨hp, f, b, h⟩
  · rw [h]
    refine ⟨?_, ?_, ?_, ?_⟩
    · intro h1; cases h1
    · intro h1; cases h1
    · intro h1; cases h1
    · intro h1; rcases h1 with h1 | h1 <;> cases h1
  · rw [h]
    refine ⟨?_, ?_, ?_, ?_⟩
    · intro h1; cases h1
    · intro h1; cases h1
    · intro h1; cases h1; rfl
    · intro h1
      rcases h1 with h1 | h1 <;> cases h1
      exact le_refl _
  · rw [h]
    refine ⟨?_, ?_, ?_, ?_⟩
    · intro _ h2; rw [hp] at h2; cases h2
    · intro h1 _; cases h1; rfl
    · intro h1; cases h1
    · intro h1
      rcases h1 with h1 | h1 <;> cases h1
      exact le_refl _
  · rw [h]
    refine ⟨?_, ?_, ?_, ?_⟩
    · intro h1 _; cases h1; rfl
    · intro _ h2; rw [hp] at h2; cases h2
    · intro h1; cases h1
    · intro h1
      rcases h1 with h1 | h1 <;> cases h1
      exact hmono f

/-- C9, the claim as stated fails: at 44100 Hz (period 22675 ns) on four silent frames, a
read 68025 ns after the start gives target frame 3; after a pause, a read 97388383459475 ns
after the start (a non-decreasing clock) has quotient 2^32 + 1, which the `int` frameNumber
holds as 1.  The counter is then 2 (frames 1 and 2 were skipped before the pause) while no
frame index lies strictly between 0 and `previousFrameNumber = 1`. -/
theorem drift_count_after_int_wrap :
    playbackFunction (silentConfig 4 44100 0) initialState
        [tickAt 68025, pausedTick 70000, tickAt 97388383459475]
        = Outcome.running
          { frameNumber := 1, previousFrameNumber := 1,
            framesSkippedCumulativePlaybackThread := 2, port := [127, 127] } ∧
      targetFrames (silentConfig 4 44100 0)
        [tickAt 68025, pausedTick 70000, tickAt 97388383459475] = [3, 1] ∧
      unvisitedBelow 1 [3, 1] = 0 := by
  decide

/-- C9 as amended: under a non-decreasing clock whose reads are not before `startSpecTime`
and whose frame indices `timeSinceStart / nanosecondsPerFrame` fit in `int`, every run from
the initial state that yields a state has `framesSkippedCumulativePlaybackThread` equal to
the number of indices `k` with `0 < k < previousFrameNumber` that were never a target
frame.  For every pass: one that reads the clock and goes on sets the counter to
`skippedAfter` (adding `frameNumber - previousFrameNumber - 1` when that difference exceeds
1, nothing otherwise); a paused pass or one that leaves the loop keeps the counter; so the
counter never decreases. -/
theorem drift_counts_unvisited (c : Config) (ticks : List Tick)
    (hnpf : 1 ≤ c.nanosecondsPerFrame)
    (hclock : List.Chain (fun x y => x ≤ y) c.startSpecTime (clockReads ticks))
    (hfit : ∀ now ∈ clockReads ticks,
      (now - c.startSpecTime) / c.nanosecondsPerFrame < 2147483648) :
    (playbackFunction c initialState ticks = Outcome.fault ∨
      ∃ s, (playbackFunction c initialState ticks = Outcome.running s ∨
          playbackFunction c initialState ticks = Outcome.finished s) ∧
        s.framesSkippedCumulativePlaybackThread
          = unvisitedBelow s.previousFrameNumber (targetFrames c ticks)) ∧
      ∀ (s s1 : PlayerState) (t : Tick),
        (playbackIteration c s t = Outcome.running s1 → t.pausePlayback = false →
          s1.framesSkippedCumulativePlaybackThread = skippedAfter s s1.frameNumber) ∧
        (playbackIteration c s t = Outcome.running s1 → t.pausePlayback = true →
          s1.framesSkippedCumulativePlaybackThread = s.framesSkippedCumulativePlaybackThread) ∧
        (playbackIteration c s t = Outcome.finished s1 →
          s1.framesSkippedCumulativePlaybackThread = s.framesSkippedCumulativePlaybackThread) ∧
        (playbackIteration c s t = Outcome.running s1 ∨
            playbackIteration c s t = Outcome.finished s1 →
          s.framesSkippedCumulativePlaybackThread
            ≤ s1.framesSkippedCumulativePlaybackThread) := by
  refine ⟨?_, fun s s1 t => playbackIteration_drift c s s1 t⟩
  have key := drift_invariant c (by omega) ticks initialState c.startSpecTime [] (le_refl _)
    hclock hfit (le_refl _)
    (by simp only [sub_self, Int.zero_ediv]; exact le_refl _)
    (fun x hx => by cases hx) (Or.inl rfl) (by simp [initialState, unvisitedBelow])
  simp only [List.nil_append] at key
  cases hrun : playbackFunction c initialState ticks with
  | running s => exact Or.inr ⟨s, Or.inl rfl, key s (Or.inl hrun)⟩
  | finished s => exact Or.inr ⟨s, Or.inr rfl, key s (Or.inr hrun)⟩
  | fault => exact Or.inl rfl

/-- C9 as amended, at 1000 Hz on ten silent frames: reads at 0, 5 and 7 ms with a paused
pass in between. -/
theorem drift_counts_unvisited_witness :
    (playbackFunction (silentConfig 10 1000 0) initialState
          [tickAt 0, pausedTick 2000000, tickAt 5000000, tickAt 7000000] = Outcome.fault ∨
      ∃ s, (playbackFunction (silentConfig 10 1000 0) initialState
            [tickAt 0, pausedTick 2000000, tickAt 5000000, tickAt 7000000] = Outcome.running s ∨
          playbackFunction (silentConfig 10 1000 0) initialState
            [tickAt 0, pausedTick 2000000, tickAt 5000000, tickAt 7000000]
              = Outcome.finished s) ∧
        s.framesSkippedCumulativePlaybackThread
          = unvisitedBelow s.previousFrameNumber (targetFrames (silentConfig 10 1000 0)
              [tickAt 0, pausedTick 2000000, tickAt 5000000, tickAt 7000000])) ∧
      ∀ (s s1 : PlayerState) (t : Tick),
        (playbackIteration (silentConfig 10 1000 0) s t = Outcome.running s1 →
          t.pausePlayback = false →
          s1.framesSkippedCumulativePlaybackThread = skippedAfter s s1.frameNumber) ∧
        (playbackIteration (silentConfig 10 1000 0) s t = Outcome.running s1 →
          t.pausePlayback = true →
          s1.framesSkippedCumulativePlaybackThread = s.framesSkippedCumulativePlaybackThread) ∧
        (playbackIteration (silentConfig 10 1000 0) s t = Outcome.finished s1 →
          s1.framesSkippedCumulativePlaybackThread = s.framesSkippedCumulativePlaybackThread) ∧
        (playbackIteration (silentConfig 10 1000 0) s t = Outcome.running s1 ∨
            playbackIteration (silentConfig 10 1000 0) s t = Outcome.finished s1 →
          s.framesSkippedCumulativePlaybackThread
            ≤ s1.framesSkippedCumulativePlaybackThread) :=
  drift_counts_unvisited (silentConfig 10 1000 0)
    [tickAt 0, pausedTick 2000000, tickAt 5000000, tickAt 7000000] (by decide)
    (by
      rw [show clockReads [tickAt 0, pausedTick 2000000, tickAt 5000000, tickAt 7000000]
        = [0, 5000000, 7000000] from by decide]
      simp only [List.chain_cons, List.Chain.nil, and_true]
      decide)
    (by decide)

/-! ## Claim on scenario 1 -/

/-- C8, the claim as stated fails: on 8000 silent mono frames at 8000 Hz under a perfect
clock the loop ends after 8000 writes with no drift, but every byte written is 127, not 128. -/
theorem scenario_one_level_not_128 :
    playbackFunction (silentConfig 8000 8000 0) initialState
        (perfectClock (silentConfig 8000 8000 0) 0 8001)
      = Outcome.finished
          { frameNumber := 8000, previousFrameNumber := 7999,
            framesSkippedCumulativePlaybackThread := 0, port := List.replicate 8000 127 } ∧
      List.replicate 8000 127 ≠ List.replicate 8000 128 := by
  refine ⟨scenario_one_run 0 0, ?_⟩
  intro h
  have h2 := List.eq_of_mem_replicate (show (127 : Nat) ∈ List.replicate 8000 128 from by
    rw [← h]
    exact List.mem_replicate.2 ⟨by decide, rfl⟩)
  exact absurd h2 (by decide)

/-- C8 as amended: at 8000 Hz the period is 125000 ns, and running the loop on a mono
buffer of 8000 zero frames under a perfect clock (read `k` exactly `k` periods after
`startSpecTime`, at least 8001 reads on offer) ends the loop after exactly 8000 port writes,
every one of level 127, with `framesSkippedCumulativePlaybackThread = 0`. -/
theorem scenario_one (start : Int) (extra : Nat) :
    nanosecondsPerFrameOf 8000 = some 125000 ∧
      playbackFunction (silentConfig 8000 8000 start) initialState
          (perfectClock (silentConfig 8000 8000 start) 0 (8001 + extra))
        = Outcome.finished
            { frameNumber := 8000, previousFrameNumber := 7999,
              framesSkippedCumulativePlaybackThread := 0, port := List.replicate 8000 127 } ∧
      (List.replicate 8000 127).length = 8000 :=
  ⟨by decide, scenario_one_run start extra, List.length_replicate 8000 127⟩

end Covox
